import Mathlib

/-!
Shallow embedding of the WHIP/WHEP WebRTC muxer and demuxer of this repository
(src/libavformat/whip.c, src/libavformat/webrtc_mux.c,
src/libavformat/webrtc_demux.c, src/libavformat/webrtc.h).

External collaborators (libdatachannel, the HTTP client, the generic RTP and
container machinery) are represented at their interface boundary: their return
codes are oracle parameters, and the calls the embedded code issues to them are
recorded in an explicit trace so that properties of the form "primitive X is
never invoked" can be stated.  Machine integers are embedded as Int/Nat with
explicit reduction modulo 2^32 where the C code casts to uint32_t.
-/

namespace WhipSpec

/-- The libdatachannel `rtcState` enumeration (rtc/rtc.h), as read and written
by the embedded code. -/
inductive RtcState where
  | rtc_new
  | connecting
  | connected
  | disconnected
  | failed
  | closed
deriving DecidableEq

/-- FFmpeg error code AVERROR(EINVAL); the spec taxonomy calls it
UnsupportedMedia or InvalidPacket depending on the site. -/
def AVERROR_EINVAL : Int := -22

/-- FFmpeg error code AVERROR(ENOMEM). -/
def AVERROR_ENOMEM : Int := -12

/-- FFmpeg error code AVERROR_EXTERNAL = -MKTAG of the four characters
E, X, T, space; the spec taxonomy calls it TransportError. -/
def AVERROR_EXTERNAL : Int := -542398533

/-- FFmpeg error code AVERROR_EOF = -MKTAG of the four characters
E, O, F, space; the spec taxonomy calls it EndOfStream. -/
def AVERROR_EOF : Int := -541478725

/-!
The connection-wait loop of `whip_write_header` (whip.c lines 381-392 and,
with a shorter sleep, webrtc_mux.c lines 169-180):

  timeout = av_gettime_relative() + s->connection_timeout;
  while (s->state != RTC_CONNECTED) {
      if (s->state == RTC_FAILED || s->state == RTC_CLOSED
          || av_gettime_relative() > timeout) {
          ret = AVERROR_EXTERNAL;
          goto fail;
      }
      av_usleep(...);
  }

The field s->state is written concurrently by the engine's notification
callback, so every textual read of s->state may observe a different value:
`obs k` is the value returned by the k-th read (the while-condition reads
obs (2*n) in iteration n, the if-condition reads obs (2*n+1)).  `clk t` is the
value returned by the t-th call of av_gettime_relative (clk 0 computes the
deadline; iteration n calls clk (n+1), and only when the if-condition reaches
its third disjunct).  `fuel` bounds the number of iterations the model
executes; `none` means the bound was hit before the loop decided.
-/

/-- One run of the wait loop of `whip_write_header`, starting at iteration n
with the given fuel.  Returns some 0 on success, some AVERROR_EXTERNAL on
failure, none when out of fuel. -/
def whipWaitAux (obs : Nat → RtcState) (clk : Nat → Int) (tm : Int) :
    Nat → Nat → Option Int
  | _, 0 => none
  | n, fuel+1 =>
    if obs (2*n) = RtcState.connected then some 0
    else if obs (2*n+1) = RtcState.failed ∨ obs (2*n+1) = RtcState.closed then
      some AVERROR_EXTERNAL
    else if tm < clk (n+1) then some AVERROR_EXTERNAL
    else whipWaitAux obs clk tm (n+1) fuel

/-- The wait loop of `whip_write_header`: the deadline is the first clock
reading plus the configured connection timeout. -/
def whipWait (obs : Nat → RtcState) (clk : Nat → Int)
    (connection_timeout : Int) (fuel : Nat) : Option Int :=
  whipWaitAux obs clk (clk 0 + connection_timeout) 0 fuel

/-- Iteration m of the wait loop falls through to the next iteration: the
while-read is not Connected, the if-read is neither Failed nor Closed, and the
clock reading does not exceed the deadline. -/
def loopPass (obs : Nat → RtcState) (clk : Nat → Int) (tm : Int) (m : Nat) :
    Prop :=
  obs (2*m) ≠ RtcState.connected ∧ obs (2*m+1) ≠ RtcState.failed ∧
    obs (2*m+1) ≠ RtcState.closed ∧ clk (m+1) ≤ tm

theorem whipWaitAux_spec (obs : Nat → RtcState) (clk : Nat → Int) (tm : Int) :
    ∀ fuel n r, whipWaitAux obs clk tm n fuel = some r →
      ((r = 0 ↔ ∃ k, obs (2*(n+k)) = RtcState.connected ∧
          ∀ j, j < k → loopPass obs clk tm (n+j)) ∧
        (r = 0 ∨ r = AVERROR_EXTERNAL)) := by
  intro fuel
  induction fuel with
  | zero => intro n r h; simp [whipWaitAux] at h
  | succ fuel ih =>
    intro n r h
    rw [whipWaitAux] at h
    by_cases hc : obs (2*n) = RtcState.connected
    · rw [if_pos hc] at h
      have hr : r = 0 := by simpa using h.symm
      subst hr
      refine ⟨⟨fun _ => ⟨0, ?_, ?_⟩, fun _ => rfl⟩, Or.inl rfl⟩
      · simpa using hc
      · intro j hj; exact absurd hj (Nat.not_lt_zero j)
    · rw [if_neg hc] at h
      by_cases hf : obs (2*n+1) = RtcState.failed ∨ obs (2*n+1) = RtcState.closed
      · rw [if_pos hf] at h
        have hr : r = AVERROR_EXTERNAL := by simpa using h.symm
        subst hr
        refine ⟨⟨fun h0 => absurd h0 (by decide), fun hex => ?_⟩, Or.inr rfl⟩
        obtain ⟨k, hconn, hall⟩ := hex
        cases k with
        | zero => exact absurd (by simpa using hconn) hc
        | succ k =>
          have hp := hall 0 (Nat.succ_pos k)
          rcases hf with hf | hf
          · exact absurd (by simpa using hf) (by simpa using hp.2.1)
          · exact absurd (by simpa using hf) (by simpa using hp.2.2.1)
      · rw [if_neg hf] at h
        by_cases ht : tm < clk (n+1)
        · rw [if_pos ht] at h
          have hr : r = AVERROR_EXTERNAL := by simpa using h.symm
          subst hr
          refine ⟨⟨fun h0 => absurd h0 (by decide), fun hex => ?_⟩, Or.inr rfl⟩
          obtain ⟨k, hconn, hall⟩ := hex
          cases k with
          | zero => exact absurd (by simpa using hconn) hc
          | succ k =>
            have hp := hall 0 (Nat.succ_pos k)
            have : clk (n+1) ≤ tm := by simpa using hp.2.2.2
            omega
        · rw [if_neg ht] at h
          obtain ⟨hiff, hval⟩ := ih (n+1) r h
          push_neg at hf
          refine ⟨?_, hval⟩
          rw [hiff]
          constructor
          · rintro ⟨k, hconn, hall⟩
            refine ⟨k+1, ?_, ?_⟩
            · have he : n + (k+1) = n + 1 + k := by omega
              rw [he]; exact hconn
            · intro j hj
              cases j with
              | zero =>
                refine ⟨by simpa using hc, by simpa using hf.1,
                  by simpa using hf.2, by simpa using not_lt.mp ht⟩
              | succ j =>
                have he : n + (j+1) = n + 1 + j := by omega
                rw [he]
                exact hall j (by omega)
          · rintro ⟨k, hconn, hall⟩
            cases k with
            | zero => exact absurd (by simpa using hconn) hc
            | succ k =>
              refine ⟨k, ?_, ?_⟩
              · have he : n + 1 + k = n + (k+1) := by omega
                rw [he]; exact hconn
              · intro j hj
                have he : n + 1 + j = n + (j+1) := by omega
                rw [he]
                exact hall (j+1) (by omega)

/-- C1 (amended): the wait loop of whip_write_header returns success iff some
while-condition read observes Connected before any iteration either observes
Failed/Closed in its if-condition read or takes a clock reading strictly above
the deadline (first clock reading + connection_timeout); and every failure —
terminal state and deadline expiry alike — returns the one error code
AVERROR_EXTERNAL, so the two failure modes are not distinguished. -/
theorem whip_wait_header_characterization (obs : Nat → RtcState)
    (clk : Nat → Int) (ct : Int) (fuel : Nat) (r : Int)
    (h : whipWait obs clk ct fuel = some r) :
    ((r = 0 ↔ ∃ k, obs (2*k) = RtcState.connected ∧
        ∀ j, j < k → loopPass obs clk (clk 0 + ct) j) ∧
      (r = 0 ∨ r = AVERROR_EXTERNAL)) := by
  have hs := whipWaitAux_spec obs clk (clk 0 + ct) fuel 0 r h
  simpa using hs

/-- Witness for C1: a run whose very first read observes Connected succeeds. -/
theorem whip_wait_header_characterization_witness :
    (((0 : Int) = 0 ↔ ∃ k, (fun _ => RtcState.connected) (2*k) = RtcState.connected ∧
        ∀ j, j < k → loopPass (fun _ => RtcState.connected) (fun _ => (0 : Int)) ((fun _ => (0 : Int)) 0 + 10) j) ∧
      ((0 : Int) = 0 ∨ (0 : Int) = AVERROR_EXTERNAL)) :=
  whip_wait_header_characterization (fun _ => RtcState.connected)
    (fun _ => (0 : Int)) 10 1 0 rfl

/-- Counterexample to C1 as stated: the run that observes Failed (the claimed
ConnectionFailed case) and the run that exceeds the deadline while still New
(the claimed Timeout case) return the very same error code AVERROR_EXTERNAL,
so the ConnectionFailed error is not distinct from the Timeout error. -/
theorem whip_wait_header_errors_not_distinct :
    whipWait (fun _ => RtcState.failed) (fun _ => (0 : Int)) 10 1
        = some AVERROR_EXTERNAL ∧
      whipWait (fun _ => RtcState.rtc_new) (fun t => 100 * (t : Int)) 10 1
        = some AVERROR_EXTERNAL := by
  constructor <;> rfl

/-!
Packet routing.  whip.c's whip_write_packet (lines 404-428) talks to the
transport engine directly (rtcSetTrackRtpTimestamp, rtcSendMessage);
webrtc_mux.c's whip_write_packet (lines 189-195) and webrtc_demux.c's
whep_read_packet (lines 199-205) route through a per-track RTP sub-pipeline
whose transport is the in-process bridge implemented in webrtc.c (not under
src/), so the bridge's end-of-stream behaviour is modelled from the spec.
-/

/-- An AVPacket, reduced to the fields the routing layer reads: the 64-bit
presentation timestamp and the stream index. -/
structure AVPacket where
  pts : Int
  stream_index : Nat
deriving DecidableEq

/-- C's conversion of a (possibly negative) 64-bit integer to uint32_t:
reduction modulo 2^32. -/
def uint32_cast (x : Int) : Nat := (x % (2 : Int)^32).toNat

/-- Calls issued by whip.c to its collaborators, recorded in program order. -/
inductive WhipCall where
  | addTrack (i : Nat)
  | setPacketizationHandler (i : Nat)
  | chainRtcpSrReporter (i : Nat)
  | chainRtcpNackResponder (i : Nat)
  | setLocalDescription
  | whipDeinit
  | setRtpTimestamp (track : Int) (ts : Nat)
  | sendMessage (track : Int)
deriving DecidableEq

/-- whip.c whip_write_packet.  `tracks i` is the engine handle stored in
s->tracks[i]; `setTsRes` and `sendRes` are the engine's return codes for
rtcSetTrackRtpTimestamp and rtcSendMessage (nonzero means failure, as in the
C truth-value tests).  Returns the AVERROR code and the trace of engine calls
actually made. -/
def whipWritePacket (state : RtcState) (tracks : Nat → Int) (pkt : AVPacket)
    (setTsRes sendRes : Int) : Int × List WhipCall :=
  if state = RtcState.disconnected ∨ state = RtcState.failed ∨
      state = RtcState.closed then
    (AVERROR_EOF, [])
  else if pkt.pts < 0 then
    (AVERROR_EINVAL, [])
  else
    let tr := tracks pkt.stream_index
    let ts := uint32_cast pkt.pts
    if setTsRes ≠ 0 then
      (AVERROR_EXTERNAL, [WhipCall.setRtpTimestamp tr ts])
    else if sendRes ≠ 0 then
      (AVERROR_EXTERNAL,
        [WhipCall.setRtpTimestamp tr ts, WhipCall.sendMessage tr])
    else
      (0, [WhipCall.setRtpTimestamp tr ts, WhipCall.sendMessage tr])

/-- Calls issued by webrtc_mux.c to its collaborators. -/
inductive MuxCall where
  | initConnection
  | initUrlContext (i : Nat)
  | rtpChainMuxOpen (i : Nat)
  | sdpWriteMedia (i : Nat)
  | addTrack (i : Nat)
  | webrtcDeinit
  | avWriteFrame (pkt : AVPacket)
deriving DecidableEq

/-- Modelled from the spec: the write side of the in-process bridge
(webrtc.c's URLContext write callback, not under src/).  Section 4.5 / section
7: once the session state has left Connected for a terminal or disconnected
state, routing returns EndOfStream; otherwise the engine's send result
(`res`) stands. -/
def dcWrite (state : RtcState) (res : Int) : Int :=
  if state = RtcState.disconnected ∨ state = RtcState.failed ∨
      state = RtcState.closed then
    AVERROR_EOF
  else res

/-- webrtc_mux.c whip_write_packet: rewrites pkt->stream_index to 0 and hands
the packet to av_write_frame on the track's RTP sub-pipeline, with no pts
check and no state check of its own; av_write_frame (excluded container
machinery) is modelled as propagating the bridge write result `dcWrite` when
it is an error.  Returns the code, the unchanged tracks array, and the trace
(the sub-pipeline call is always made). -/
def muxWhipWritePacket (state : RtcState) (tracks : List Int)
    (writeRes : Int) (pkt : AVPacket) : Int × List Int × List MuxCall :=
  let w := dcWrite state writeRes
  ((if w < 0 then w else 0), tracks,
    [MuxCall.avWriteFrame { pkt with stream_index := 0 }])

/-- Modelled from the spec: the read side of the in-process bridge (webrtc.c's
URLContext read callback, not under src/).  In a terminal or disconnected
state the bridge reports end-of-data (none); otherwise it yields the next
payload of the track's queue, if any. -/
def dcRead (state : RtcState) (queue : List Nat) : Option Nat :=
  if state = RtcState.disconnected ∨ state = RtcState.failed ∨
      state = RtcState.closed then
    none
  else queue.head?

/-- webrtc_demux.c whep_read_packet: selects the Track Binding at the incoming
pkt->stream_index, then reads the next packet from that binding's RTP
sub-pipeline via av_read_frame.  The sub-pipeline was opened on a synthesized
single-track session description, so its only stream has index 0 and the
returned packet carries stream index 0.  `queues i` is track i's pending
payload queue; an exhausted sub-pipeline or a terminal bridge state surfaces
as AVERROR_EOF.  Returns the code and, on success, the packet as (stream
index, payload). -/
def whepReadPacket (state : RtcState) (queues : List (List Nat)) (idx : Nat) :
    Int × Option (Nat × Nat) :=
  match dcRead state (queues.getD idx []) with
  | none => (AVERROR_EOF, none)
  | some p => (0, some (0, p))

/-- C2 counterexample: a packet with negative pts sent while the state is
Disconnected is answered with AVERROR_EOF, not the claimed InvalidPacket
(AVERROR(EINVAL)), because whip_write_packet checks the state first. -/
theorem whip_write_packet_negative_pts_counterexample :
    whipWritePacket RtcState.disconnected (fun _ => 1)
        { pts := -1, stream_index := 0 } 0 0 = (AVERROR_EOF, []) ∧
      AVERROR_EOF ≠ AVERROR_EINVAL :=
  ⟨rfl, by decide⟩

/-- C2 (amended): in whip.c a negative-pts packet never triggers the transport
primitives (neither rtcSetTrackRtpTimestamp nor rtcSendMessage appears in the
trace); the call returns InvalidPacket (AVERROR(EINVAL)) when the connection
state is not Disconnected/Failed/Closed and EndOfStream (AVERROR_EOF) when it
is.  The webrtc_mux.c variant performs no pts validation at all and hands
every packet — negative pts included — to its RTP sub-pipeline. -/
theorem whip_write_packet_negative_pts_rejected (state : RtcState)
    (tracks : Nat → Int) (pkt : AVPacket) (a b w : Int) (trks : List Int)
    (h : pkt.pts < 0) :
    (∀ t, WhipCall.sendMessage t ∉ (whipWritePacket state tracks pkt a b).2) ∧
      (∀ t ts,
        WhipCall.setRtpTimestamp t ts ∉ (whipWritePacket state tracks pkt a b).2) ∧
      (¬(state = RtcState.disconnected ∨ state = RtcState.failed ∨
          state = RtcState.closed) →
        (whipWritePacket state tracks pkt a b).1 = AVERROR_EINVAL) ∧
      ((state = RtcState.disconnected ∨ state = RtcState.failed ∨
          state = RtcState.closed) →
        (whipWritePacket state tracks pkt a b).1 = AVERROR_EOF) ∧
      MuxCall.avWriteFrame { pkt with stream_index := 0 }
        ∈ (muxWhipWritePacket state trks w pkt).2.2 := by
  by_cases hterm : state = RtcState.disconnected ∨ state = RtcState.failed ∨
      state = RtcState.closed
  · refine ⟨?_, ?_, fun hn => absurd hterm hn, fun _ => ?_, ?_⟩
    · intro t; simp [whipWritePacket, if_pos hterm]
    · intro t ts; simp [whipWritePacket, if_pos hterm]
    · simp [whipWritePacket, if_pos hterm]
    · simp [muxWhipWritePacket]
  · refine ⟨?_, ?_, fun _ => ?_, fun ht => absurd ht hterm, ?_⟩
    · intro t; simp [whipWritePacket, if_neg hterm, if_pos h]
    · intro t ts; simp [whipWritePacket, if_neg hterm, if_pos h]
    · simp [whipWritePacket, if_neg hterm, if_pos h]
    · simp [muxWhipWritePacket]

/-- Witness for C2 (amended), at a Connected state and pts = -5. -/
theorem whip_write_packet_negative_pts_rejected_witness :
    (∀ t, WhipCall.sendMessage t
        ∉ (whipWritePacket RtcState.connected (fun _ => 1)
            { pts := -5, stream_index := 0 } 0 0).2) ∧
      (∀ t ts, WhipCall.setRtpTimestamp t ts
        ∉ (whipWritePacket RtcState.connected (fun _ => 1)
            { pts := -5, stream_index := 0 } 0 0).2) ∧
      (¬(RtcState.connected = RtcState.disconnected ∨
          RtcState.connected = RtcState.failed ∨
          RtcState.connected = RtcState.closed) →
        (whipWritePacket RtcState.connected (fun _ => 1)
            { pts := -5, stream_index := 0 } 0 0).1 = AVERROR_EINVAL) ∧
      ((RtcState.connected = RtcState.disconnected ∨
          RtcState.connected = RtcState.failed ∨
          RtcState.connected = RtcState.closed) →
        (whipWritePacket RtcState.connected (fun _ => 1)
            { pts := -5, stream_index := 0 } 0 0).1 = AVERROR_EOF) ∧
      MuxCall.avWriteFrame
          { pts := -5, stream_index := 0 : AVPacket }
        ∈ (muxWhipWritePacket RtcState.connected [1] 0
            { pts := -5, stream_index := 0 }).2.2 :=
  whip_write_packet_negative_pts_rejected RtcState.connected (fun _ => 1)
    { pts := -5, stream_index := 0 } 0 0 0 [1] (by decide)

/-- C3: a routing call that reads a Disconnected, Failed or Closed connection
state returns AVERROR_EOF (EndOfStream): whip.c's whip_write_packet checks the
state directly; for webrtc_mux.c's whip_write_packet and webrtc_demux.c's
whep_read_packet the end-of-data comes out of the bridge (modelled from the
spec, webrtc.c being absent from src/) and propagates through the RTP
sub-pipeline. -/
theorem route_after_terminal_state_returns_eof (state : RtcState)
    (tracks : Nat → Int) (pkt : AVPacket) (a b w : Int) (trks : List Int)
    (queues : List (List Nat)) (idx : Nat)
    (h : state = RtcState.disconnected ∨ state = RtcState.failed ∨
      state = RtcState.closed) :
    (whipWritePacket state tracks pkt a b).1 = AVERROR_EOF ∧
      (muxWhipWritePacket state trks w pkt).1 = AVERROR_EOF ∧
      whepReadPacket state queues idx = (AVERROR_EOF, none) := by
  rcases h with h | h | h <;> subst h <;> exact ⟨rfl, rfl, rfl⟩

/-- Witness for C3, at the Failed state. -/
theorem route_after_terminal_state_returns_eof_witness :
    (whipWritePacket RtcState.failed (fun _ => 1)
        { pts := 5, stream_index := 0 } 0 0).1 = AVERROR_EOF ∧
      (muxWhipWritePacket RtcState.failed [1] 0
        { pts := 5, stream_index := 0 }).1 = AVERROR_EOF ∧
      whepReadPacket RtcState.failed [[3], [4]] 0 = (AVERROR_EOF, none) :=
  route_after_terminal_state_returns_eof RtcState.failed (fun _ => 1)
    { pts := 5, stream_index := 0 } 0 0 0 [1] [[3], [4]] 0
    (Or.inr (Or.inl rfl))

/-- C9: every successful whep_read_packet call with stream index i returns a
packet whose payload is the next packet of Track Binding i's decoding
sub-pipeline and whose stream index is the container index 0. -/
theorem whep_read_packet_rewrites_stream_index (state : RtcState)
    (queues : List (List Nat)) (idx : Nat) (out : Nat × Nat)
    (h : whepReadPacket state queues idx = (0, some out)) :
    out.1 = 0 ∧ (queues.getD idx []).head? = some out.2 := by
  unfold whepReadPacket at h
  rcases hd : dcRead state (queues.getD idx []) with _ | p
  · rw [hd] at h
    simp at h
  · rw [hd] at h
    simp at h
    unfold dcRead at hd
    split_ifs at hd with ht
    cases h
    refine ⟨rfl, ?_⟩
    simpa using hd

/-- Witness for C9: with two queued tracks and the incoming index 1, the audio
track's head payload comes back under stream index 0. -/
theorem whep_read_packet_rewrites_stream_index_witness :
    (0, 7).1 = 0 ∧ ([[5], [7]].getD 1 []).head? = some ((0, 7) : Nat × Nat).2 :=
  whep_read_packet_rewrites_stream_index RtcState.connected [[5], [7]] 1
    (0, 7) rfl

/-- C10: for a packet whip.c's whip_write_packet accepts (state not terminal,
pts nonnegative), the RTP timestamp handed to rtcSetTrackRtpTimestamp is the
64-bit pts reduced modulo 2^32 — the C cast to uint32_t — so pts at or above
2^32 wrap silently. -/
theorem whip_write_packet_timestamp_mod_2_32 (state : RtcState)
    (tracks : Nat → Int) (pkt : AVPacket) (a b : Int)
    (h1 : ¬(state = RtcState.disconnected ∨ state = RtcState.failed ∨
      state = RtcState.closed)) (h2 : 0 ≤ pkt.pts) :
    (whipWritePacket state tracks pkt a b).2.head? =
      some (WhipCall.setRtpTimestamp (tracks pkt.stream_index)
        ((pkt.pts % (2 : Int)^32).toNat)) := by
  unfold whipWritePacket uint32_cast
  rw [if_neg h1, if_neg (not_lt.mpr h2)]
  split_ifs <;> rfl

/-- Witness for C10: pts = 2^32 + 7 is timestamped as 7. -/
theorem whip_write_packet_timestamp_mod_2_32_witness :
    (whipWritePacket RtcState.connected (fun _ => 1)
        { pts := (2 : Int)^32 + 7, stream_index := 0 } 0 0).2.head? =
      some (WhipCall.setRtpTimestamp 1
        ((((2 : Int)^32 + 7) % (2 : Int)^32).toNat)) :=
  whip_write_packet_timestamp_mod_2_32 RtcState.connected (fun _ => 1)
    { pts := (2 : Int)^32 + 7, stream_index := 0 } 0 0 (by decide)
    (by norm_num)

/-!
Teardown: whip.c whip_write_trailer (lines 430-475).  If a resource location
is present it issues an HTTP DELETE to it (ffurl_alloc, ffurl_connect,
ffurl_closep) and frees the location only after all three steps succeeded; on
any failure it returns the error with the location still in place.
-/

/-- HTTP requests issued by whip_write_trailer. -/
inductive TrailerCall where
  | httpDelete (loc : String)
deriving DecidableEq

/-- whip.c whip_write_trailer.  `allocRes`, `connectRes`, `closeRes` are the
return codes of ffurl_alloc, ffurl_connect and ffurl_closep (negative means
failure); the DELETE is performed by ffurl_connect.  Returns the AVERROR code,
the resource location left in the context, and the HTTP requests issued. -/
def whipWriteTrailer (resource_location : Option String)
    (allocRes connectRes closeRes : Int) :
    Int × Option String × List TrailerCall :=
  match resource_location with
  | none => (0, none, [])
  | some loc =>
    if allocRes < 0 then (allocRes, some loc, [])
    else if connectRes < 0 then (connectRes, some loc, [TrailerCall.httpDelete loc])
    else if closeRes < 0 then (closeRes, some loc, [TrailerCall.httpDelete loc])
    else (0, none, [TrailerCall.httpDelete loc])

/-- C4 counterexample: a first teardown whose DELETE went through but whose
ffurl_closep failed returns with the resource location still set, so a second
teardown issues a second HTTP DELETE — two DELETE requests to the same
resource across two calls, and the location was not cleared after an attempted
(here even successful) deletion. -/
theorem whip_write_trailer_not_idempotent_counterexample :
    whipWriteTrailer (some "resource") 0 0 (-5)
        = (-5, some "resource", [TrailerCall.httpDelete "resource"]) ∧
      whipWriteTrailer (some "resource") 0 0 0
        = (0, none, [TrailerCall.httpDelete "resource"]) :=
  ⟨rfl, rfl⟩

/-- C4 (amended): teardown is idempotent only after a fully successful
deletion: when ffurl_alloc, ffurl_connect (the DELETE) and ffurl_closep all
succeed, the resource location is cleared, and a second call — the location
now absent — issues no HTTP request and returns 0 whatever its own oracle
codes; but when the first attempt fails at any step the location is retained,
so a later call attempts the DELETE again. -/
theorem whip_write_trailer_idempotent_after_success (loc : String)
    (a c cl a2 c2 cl2 : Int) :
    whipWriteTrailer (some loc) 0 0 0
        = (0, none, [TrailerCall.httpDelete loc]) ∧
      whipWriteTrailer none a2 c2 cl2 = (0, none, []) ∧
      (a < 0 ∨ c < 0 ∨ cl < 0 →
        (whipWriteTrailer (some loc) a c cl).2.1 = some loc) := by
  refine ⟨rfl, rfl, fun h => ?_⟩
  simp only [whipWriteTrailer]
  split_ifs <;> first | rfl | omega

/-- Witness for C4 (amended): a concrete failed first deletion retains the
location. -/
theorem whip_write_trailer_idempotent_after_success_witness :
    whipWriteTrailer (some "loc") 0 0 0
        = (0, none, [TrailerCall.httpDelete "loc"]) ∧
      whipWriteTrailer none 1 1 1 = (0, none, []) ∧
      ((0 : Int) < 0 ∨ (-3 : Int) < 0 ∨ (0 : Int) < 0 →
        (whipWriteTrailer (some "loc") 0 (-3) 0).2.1 = some "loc") :=
  whip_write_trailer_idempotent_after_success "loc" 0 (-3) 0 1 1 1

/-!
Session setup.  whip.c whip_init (lines 115-317) and webrtc_mux.c whip_init
(lines 41-155) walk the declared streams in order, validate audio parameters,
map the codec, register a track with the engine, and attach the RTP
packetization sub-pipeline; every failure in whip.c goes through `goto fail`
into whip_deinit, while webrtc_mux.c has two paths that return directly.
-/

/-- AVMediaType, restricted to the three cases the setup code distinguishes:
audio, video, and everything else. -/
inductive MediaType where
  | audio
  | video
  | data
deriving DecidableEq

/-- The codec identifiers the two muxers inspect. -/
inductive CodecId where
  | opus
  | aac
  | pcm_mulaw
  | pcm_alaw
  | h264
  | hevc
  | av1
  | vp9
  | other
deriving DecidableEq

/-- A declared stream, reduced to the codec parameters whip_init reads:
media type, codec id, sample rate, and whether av_channel_layout_compare
against the stereo layout returned 0. -/
structure MediaStream where
  codec_type : MediaType
  codec_id : CodecId
  sample_rate : Int
  stereo : Bool
deriving DecidableEq

/-- Return codes of the external calls whip.c whip_init makes, indexed by
stream where per-stream.  rtcCreatePeerConnection and rtcAddTrackEx report
failure as 0 under whip.c's truth-value tests; the rtcSet...Handler and
rtcChain... calls report failure as nonzero. -/
structure WhipExt where
  pcRes : Int
  cbRes : Int
  allocOk : Bool
  addRes : Nat → Int
  handlerRes : Nat → Int
  srRes : Nat → Int
  nackRes : Nat → Int
  localDescRes : Int

/-- whip.c whip_init, audio branch for stream i (lines 162-237): sample rate
and layout validation, codec table (Opus, AAC), rtcAddTrackEx with a zero
result fatal as AVERROR(EINVAL), then packetization handler and the two RTCP
chain calls, each fatal as AVERROR_EXTERNAL. -/
def whipInitAudio (ext : WhipExt) (i : Nat) (st : MediaStream) :
    Except (Int × List WhipCall) (List WhipCall) :=
  if st.sample_rate ≠ 48000 then Except.error (AVERROR_EINVAL, [])
  else if ¬ st.stereo then Except.error (AVERROR_EINVAL, [])
  else if st.codec_id ≠ CodecId.opus ∧ st.codec_id ≠ CodecId.aac then
    Except.error (AVERROR_EINVAL, [])
  else if ext.addRes i = 0 then
    Except.error (AVERROR_EINVAL, [WhipCall.addTrack i])
  else if ext.handlerRes i ≠ 0 then
    Except.error (AVERROR_EXTERNAL,
      [WhipCall.addTrack i, WhipCall.setPacketizationHandler i])
  else if ext.srRes i ≠ 0 then
    Except.error (AVERROR_EXTERNAL,
      [WhipCall.addTrack i, WhipCall.setPacketizationHandler i,
        WhipCall.chainRtcpSrReporter i])
  else if ext.nackRes i ≠ 0 then
    Except.error (AVERROR_EXTERNAL,
      [WhipCall.addTrack i, WhipCall.setPacketizationHandler i,
        WhipCall.chainRtcpSrReporter i, WhipCall.chainRtcpNackResponder i])
  else
    Except.ok [WhipCall.addTrack i, WhipCall.setPacketizationHandler i,
      WhipCall.chainRtcpSrReporter i, WhipCall.chainRtcpNackResponder i]

/-- whip.c whip_init, video branch for stream i (lines 238-303): codec table
(H.264, HEVC), rtcAddTrackEx with a zero result fatal as AVERROR_EXTERNAL,
then the packetization handler and RTCP chain calls. -/
def whipInitVideo (ext : WhipExt) (i : Nat) (st : MediaStream) :
    Except (Int × List WhipCall) (List WhipCall) :=
  if st.codec_id ≠ CodecId.h264 ∧ st.codec_id ≠ CodecId.hevc then
    Except.error (AVERROR_EINVAL, [])
  else if ext.addRes i = 0 then
    Except.error (AVERROR_EXTERNAL, [WhipCall.addTrack i])
  else if ext.handlerRes i ≠ 0 then
    Except.error (AVERROR_EXTERNAL,
      [WhipCall.addTrack i, WhipCall.setPacketizationHandler i])
  else if ext.srRes i ≠ 0 then
    Except.error (AVERROR_EXTERNAL,
      [WhipCall.addTrack i, WhipCall.setPacketizationHandler i,
        WhipCall.chainRtcpSrReporter i])
  else if ext.nackRes i ≠ 0 then
    Except.error (AVERROR_EXTERNAL,
      [WhipCall.addTrack i, WhipCall.setPacketizationHandler i,
        WhipCall.chainRtcpSrReporter i, WhipCall.chainRtcpNackResponder i])
  else
    Except.ok [WhipCall.addTrack i, WhipCall.setPacketizationHandler i,
      WhipCall.chainRtcpSrReporter i, WhipCall.chainRtcpNackResponder i]

/-- whip.c whip_init, body of the per-stream loop: audio and video streams
take their branch; any other media type matches neither `if` and falls through
with no call made (its s->tracks entry stays uninitialized). -/
def whipInitStream (ext : WhipExt) (i : Nat) (st : MediaStream) :
    Except (Int × List WhipCall) (List WhipCall) :=
  match st.codec_type with
  | MediaType.audio => whipInitAudio ext i st
  | MediaType.video => whipInitVideo ext i st
  | MediaType.data => Except.ok []

/-- whip.c whip_init, the per-stream loop from stream index i on: stops at the
first failing stream, concatenating the call traces. -/
def whipInitLoop (ext : WhipExt) : Nat → List MediaStream →
    Except (Int × List WhipCall) (List WhipCall)
  | _, [] => Except.ok []
  | i, st :: rest =>
    match whipInitStream ext i st with
    | Except.error e => Except.error e
    | Except.ok tr =>
      match whipInitLoop ext (i+1) rest with
      | Except.error (c, tr2) => Except.error (c, tr ++ tr2)
      | Except.ok tr2 => Except.ok (tr ++ tr2)

/-- whip.c whip_init: peer connection creation (0 = failure, returned without
cleanup since nothing was created), state-change callback registration, tracks
array allocation, the per-stream loop, and rtcSetLocalDescription; every
failure after the peer connection exists runs whip_deinit (`goto fail`).
Returns the AVERROR code (0 on success) and the call trace. -/
def whipInit (ext : WhipExt) (streams : List MediaStream) :
    Int × List WhipCall :=
  if ext.pcRes = 0 then (AVERROR_EXTERNAL, [])
  else if ext.cbRes ≠ 0 then (AVERROR_EXTERNAL, [WhipCall.whipDeinit])
  else if ¬ ext.allocOk then (AVERROR_ENOMEM, [WhipCall.whipDeinit])
  else
    match whipInitLoop ext 0 streams with
    | Except.error (c, tr) => (c, tr ++ [WhipCall.whipDeinit])
    | Except.ok tr =>
      if ext.localDescRes ≠ 0 then
        (AVERROR_EXTERNAL, tr ++ [WhipCall.setLocalDescription, WhipCall.whipDeinit])
      else (0, tr ++ [WhipCall.setLocalDescription])

/-- Return codes of the external calls webrtc_mux.c whip_init makes
(webrtc_init_connection, av_mallocz, webrtc_init_urlcontext,
ff_rtp_chain_mux_open, ff_sdp_write_media, rtcAddTrackEx), negative meaning
failure except for allocOk. -/
structure MuxExt where
  initConnRes : Int
  allocOk : Bool
  urlCtxRes : Nat → Int
  rtpChainRes : Nat → Int
  sdpRes : Nat → Int
  addTrackRes : Nat → Int

/-- Modelled from the spec: `webrtc_convert_codec` is implemented in webrtc.c,
which is not under src/.  Section 4.2: codec mapping is a fixed table and an
unmapped codec fails with UnsupportedMedia (AVERROR(EINVAL)); the mux role's
supported set is the one whip_query_codec (webrtc_mux.c lines 216-232)
advertises. -/
def webrtc_convert_codec (c : CodecId) : Int :=
  match c with
  | CodecId.opus | CodecId.aac | CodecId.pcm_mulaw | CodecId.pcm_alaw
  | CodecId.h264 | CodecId.hevc | CodecId.av1 | CodecId.vp9 => 0
  | CodecId.other => AVERROR_EINVAL

/-- webrtc_mux.c whip_init, the per-stream track construction after the
audio/video dispatch (lines 98-143): webrtc_init_urlcontext and
ff_rtp_chain_mux_open failures return directly — without whip_deinit (the
Bool false in the error marks such a bare return) — while
webrtc_convert_codec, ff_sdp_write_media and a negative rtcAddTrackEx go
through `goto fail` (Bool true).  On success yields the returned track id and
the call trace. -/
def muxInitTrack (ext : MuxExt) (i : Nat) (st : MediaStream) :
    Except (Int × Bool × List MuxCall) (Int × List MuxCall) :=
  if ext.urlCtxRes i < 0 then
    Except.error (ext.urlCtxRes i, false, [MuxCall.initUrlContext i])
  else if ext.rtpChainRes i < 0 then
    Except.error (ext.rtpChainRes i, false,
      [MuxCall.initUrlContext i, MuxCall.rtpChainMuxOpen i])
  else if webrtc_convert_codec st.codec_id < 0 then
    Except.error (webrtc_convert_codec st.codec_id, true,
      [MuxCall.initUrlContext i, MuxCall.rtpChainMuxOpen i])
  else if ext.sdpRes i < 0 then
    Except.error (ext.sdpRes i, true,
      [MuxCall.initUrlContext i, MuxCall.rtpChainMuxOpen i,
        MuxCall.sdpWriteMedia i])
  else if ext.addTrackRes i < 0 then
    Except.error (AVERROR_EINVAL, true,
      [MuxCall.initUrlContext i, MuxCall.rtpChainMuxOpen i,
        MuxCall.sdpWriteMedia i, MuxCall.addTrack i])
  else
    Except.ok (ext.addTrackRes i,
      [MuxCall.initUrlContext i, MuxCall.rtpChainMuxOpen i,
        MuxCall.sdpWriteMedia i, MuxCall.addTrack i])

/-- webrtc_mux.c whip_init, body of the per-stream loop (lines 76-96 then
98-143): video goes straight to track construction, audio first validates
sample rate 48000 and stereo layout (each violation AVERROR(EINVAL), via
`goto fail`), any other media type is skipped by `continue`, its mallocz'd
track entry remaining 0. -/
def muxInitStream (ext : MuxExt) (i : Nat) (st : MediaStream) :
    Except (Int × Bool × List MuxCall) (Int × List MuxCall) :=
  match st.codec_type with
  | MediaType.data => Except.ok (0, [])
  | MediaType.video => muxInitTrack ext i st
  | MediaType.audio =>
    if st.sample_rate ≠ 48000 then Except.error (AVERROR_EINVAL, true, [])
    else if ¬ st.stereo then Except.error (AVERROR_EINVAL, true, [])
    else muxInitTrack ext i st

/-- webrtc_mux.c whip_init, the per-stream loop from index i on, collecting
the track_id entries of the DataChannelTrack array and the call trace. -/
def muxInitLoop (ext : MuxExt) : Nat → List MediaStream →
    Except (Int × Bool × List MuxCall) (List Int × List MuxCall)
  | _, [] => Except.ok ([], [])
  | i, st :: rest =>
    match muxInitStream ext i st with
    | Except.error e => Except.error e
    | Except.ok (tid, tr) =>
      match muxInitLoop ext (i+1) rest with
      | Except.error (c, d, tr2) => Except.error (c, d, tr ++ tr2)
      | Except.ok (tids, tr2) => Except.ok (tid :: tids, tr ++ tr2)

/-- Outcome of webrtc_mux.c whip_init: the AVERROR code, the track_id entries
of the DataChannelTrack array (in stream order, empty on failure), whether
whip_deinit ran on the way out, and the call trace. -/
structure MuxInitOut where
  code : Int
  tracks : List Int
  deinitCalled : Bool
  trace : List MuxCall
deriving DecidableEq

/-- webrtc_mux.c whip_init: webrtc_init_connection, the tracks array
allocation (av_mallocz, so untouched entries read 0), then the per-stream
loop.  A `goto fail` failure runs whip_deinit (which calls webrtc_deinit); the
two bare-return failure paths inside the loop do not. -/
def muxWhipInit (ext : MuxExt) (streams : List MediaStream) : MuxInitOut :=
  if ext.initConnRes < 0 then
    { code := ext.initConnRes, tracks := [], deinitCalled := true,
      trace := [MuxCall.webrtcDeinit] }
  else if ¬ ext.allocOk then
    { code := AVERROR_ENOMEM, tracks := [], deinitCalled := true,
      trace := [MuxCall.initConnection, MuxCall.webrtcDeinit] }
  else
    match muxInitLoop ext 0 streams with
    | Except.error (c, d, tr) =>
      { code := c, tracks := [], deinitCalled := d,
        trace := MuxCall.initConnection ::
          (tr ++ if d then [MuxCall.webrtcDeinit] else []) }
    | Except.ok (tids, tr) =>
      { code := 0, tracks := tids, deinitCalled := false,
        trace := MuxCall.initConnection :: tr }

/-- C6: evaluation at the failing input.  One H.264 video stream; the
connection initializes (so the peer connection exists), the tracks array is
allocated, and then webrtc_init_urlcontext fails with -5: webrtc_mux.c's
whip_init returns -5 through the bare `return ret` of lines 98-102 — contrary
to the claim, whip_deinit is not run (deinitCalled = false and webrtcDeinit is
absent from the trace), so the peer connection and the tracks array are left
allocated. -/
theorem mux_init_urlcontext_failure_skips_teardown :
    muxWhipInit
        { initConnRes := 0, allocOk := true, urlCtxRes := fun _ => -5,
          rtpChainRes := fun _ => 0, sdpRes := fun _ => 0,
          addTrackRes := fun _ => 1 }
        [{ codec_type := MediaType.video, codec_id := CodecId.h264,
            sample_rate := 90000, stereo := true }]
      = { code := -5, tracks := [], deinitCalled := false,
          trace := [MuxCall.initConnection, MuxCall.initUrlContext 0] } ∧
      MuxCall.webrtcDeinit ∉ [MuxCall.initConnection, MuxCall.initUrlContext 0] :=
  ⟨rfl, by decide⟩

/-- C7 counterexample: webrtc_mux.c whip_init succeeds on a single declared
stream of a type that is neither audio nor video (the `default: continue`
branch), yet no track is registered for it — its DataChannelTrack entry keeps
the mallocz'd track_id 0, which the data model itself calls invalid — so it is
not the case that each declared stream has a bound track. -/
theorem mux_init_data_stream_unbound_counterexample :
    muxWhipInit
        { initConnRes := 0, allocOk := true, urlCtxRes := fun _ => 0,
          rtpChainRes := fun _ => 0, sdpRes := fun _ => 0,
          addTrackRes := fun _ => 1 }
        [{ codec_type := MediaType.data, codec_id := CodecId.other,
            sample_rate := 0, stereo := false }]
      = { code := 0, tracks := [0], deinitCalled := false,
          trace := [MuxCall.initConnection] } ∧
      MuxCall.addTrack 0 ∉ [MuxCall.initConnection] :=
  ⟨rfl, by decide⟩

/-- C8 counterexample: webrtc_mux.c whip_init checks only `track_id < 0`
(line 139), so when rtcAddTrackEx returns the identifier 0 for an H.264 video
stream session setup succeeds — it does not fail as the claim requires for the
zero case — and the zero identifier is stored as the stream's track. -/
theorem mux_init_zero_track_id_accepted_counterexample :
    muxWhipInit
        { initConnRes := 0, allocOk := true, urlCtxRes := fun _ => 0,
          rtpChainRes := fun _ => 0, sdpRes := fun _ => 0,
          addTrackRes := fun _ => 0 }
        [{ codec_type := MediaType.video, codec_id := CodecId.h264,
            sample_rate := 90000, stereo := true }]
      = { code := 0, tracks := [0], deinitCalled := false,
          trace := [MuxCall.initConnection, MuxCall.initUrlContext 0,
            MuxCall.rtpChainMuxOpen 0, MuxCall.sdpWriteMedia 0,
            MuxCall.addTrack 0] } :=
  rfl

theorem whipInitStream_ok_addTrack (ext : WhipExt) (i : Nat)
    (st : MediaStream) (tr : List WhipCall)
    (h : whipInitStream ext i st = Except.ok tr)
    (j : Nat) (hm : WhipCall.addTrack j ∈ tr) : j = i := by
  obtain ⟨ct, cid, sr, sto⟩ := st
  cases ct <;> simp only [whipInitStream] at h
  · unfold whipInitAudio at h
    split_ifs at h
    any_goals simp at h
    subst h
    simpa using hm
  · unfold whipInitVideo at h
    split_ifs at h
    any_goals simp at h
    subst h
    simpa using hm
  · simp_all

theorem whipInitLoop_ok_addTrack (ext : WhipExt) :
    ∀ (xs : List MediaStream) (i : Nat) (tr : List WhipCall),
      whipInitLoop ext i xs = Except.ok tr →
      ∀ j, WhipCall.addTrack j ∈ tr → j < i + xs.length := by
  intro xs
  induction xs with
  | nil =>
    intro i tr h j hm
    simp only [whipInitLoop] at h
    obtain rfl : tr = [] := by simpa using h.symm
    simp at hm
  | cons st rest ih =>
    intro i tr h j hm
    simp only [whipInitLoop] at h
    rcases hs : whipInitStream ext i st with e | tr1 <;> rw [hs] at h
    · simp at h
    · rcases hr : whipInitLoop ext (i+1) rest with ⟨c, tr2⟩ | tr2 <;>
        rw [hr] at h
      · simp at h
      · obtain rfl : tr = tr1 ++ tr2 := by simpa using h.symm
        rcases List.mem_append.mp hm with hm1 | hm2
        · have := whipInitStream_ok_addTrack ext i st tr1 hs j hm1
          simp [this]
        · have := ih (i+1) tr2 hr j hm2
          simp only [List.length_cons]
          omega

theorem whipInitLoop_append_error (ext : WhipExt) (bad : MediaStream)
    (post : List MediaStream) (c : Int) (trb : List WhipCall) :
    ∀ (xs : List MediaStream) (i : Nat) (tr : List WhipCall),
      whipInitLoop ext i xs = Except.ok tr →
      whipInitStream ext (i + xs.length) bad = Except.error (c, trb) →
      whipInitLoop ext i (xs ++ bad :: post) = Except.error (c, tr ++ trb) := by
  intro xs
  induction xs with
  | nil =>
    intro i tr h hbad
    obtain rfl : tr = [] := by simpa [whipInitLoop] using h.symm
    simp only [List.nil_append, whipInitLoop]
    rw [show i + [].length = i from by simp] at hbad
    rw [hbad]
  | cons st rest ih =>
    intro i tr h hbad
    simp only [whipInitLoop] at h
    rcases hs : whipInitStream ext i st with e | tr1 <;> rw [hs] at h
    · simp at h
    · rcases hr : whipInitLoop ext (i+1) rest with ⟨c2, tr2⟩ | tr2 <;>
        rw [hr] at h
      · simp at h
      · obtain rfl : tr = tr1 ++ tr2 := by simpa using h.symm
        have hbad2 : whipInitStream ext (i + 1 + rest.length) bad
            = Except.error (c, trb) := by
          rw [show i + 1 + rest.length = i + (st :: rest).length from by
            simp only [List.length_cons]; omega]
          exact hbad
        have hrec := ih (i+1) tr2 hr hbad2
        simp only [List.cons_append, whipInitLoop, hs, List.append_eq, hrec,
          List.append_assoc]

theorem whipInitLoop_append_ok (ext : WhipExt) (ys : List MediaStream) :
    ∀ (xs : List MediaStream) (i : Nat) (tr tys : List WhipCall),
      whipInitLoop ext i xs = Except.ok tr →
      whipInitLoop ext (i + xs.length) ys = Except.ok tys →
      whipInitLoop ext i (xs ++ ys) = Except.ok (tr ++ tys) := by
  intro xs
  induction xs with
  | nil =>
    intro i tr tys h hys
    obtain rfl : tr = [] := by simpa [whipInitLoop] using h.symm
    simpa using hys
  | cons st rest ih =>
    intro i tr tys h hys
    simp only [whipInitLoop] at h
    rcases hs : whipInitStream ext i st with e | tr1 <;> rw [hs] at h
    · simp at h
    · rcases hr : whipInitLoop ext (i+1) rest with ⟨c2, tr2⟩ | tr2 <;>
        rw [hr] at h
      · simp at h
      · obtain rfl : tr = tr1 ++ tr2 := by simpa using h.symm
        have hys2 : whipInitLoop ext (i + 1 + rest.length) ys
            = Except.ok tys := by
          rw [show i + 1 + rest.length = i + (st :: rest).length from by
            simp only [List.length_cons]; omega]
          exact hys
        have hrec := ih (i+1) tr2 tys hr hys2
        simp only [List.cons_append, whipInitLoop, hs, List.append_eq, hrec,
          List.append_assoc]

theorem whipInitAudio_invalid_params (ext : WhipExt) (i : Nat)
    (st : MediaStream) (hbad : st.sample_rate ≠ 48000 ∨ st.stereo = false) :
    whipInitAudio ext i st = Except.error (AVERROR_EINVAL, []) := by
  unfold whipInitAudio
  rcases hbad with hb | hb
  · rw [if_pos hb]
  · rcases hsr : decide (st.sample_rate ≠ 48000) with _ | _
    · have hsr2 : ¬ st.sample_rate ≠ 48000 := by simpa using hsr
      rw [if_neg hsr2, if_pos (by simp [hb])]
    · rw [if_pos (by simpa using hsr)]

/-- Default MediaStream used as the out-of-range placeholder of List.getD. -/
def defaultStream : MediaStream :=
  { codec_type := MediaType.data, codec_id := CodecId.other,
    sample_rate := 0, stereo := false }

theorem muxInitStream_invalid_audio (ext : MuxExt) (i : Nat)
    (st : MediaStream) (hb : st.codec_type = MediaType.audio)
    (hbad : st.sample_rate ≠ 48000 ∨ st.stereo = false) :
    muxInitStream ext i st = Except.error (AVERROR_EINVAL, true, []) := by
  unfold muxInitStream
  rw [hb]
  rcases hbad with h | h
  · rw [if_pos h]
  · rcases hsr : decide (st.sample_rate ≠ 48000) with _ | _
    · have hsr2 : ¬ st.sample_rate ≠ 48000 := by simpa using hsr
      rw [if_neg hsr2, if_pos (by simp [h])]
    · rw [if_pos (by simpa using hsr)]

theorem muxInitStream_ok_addTrack (ext : MuxExt) (i : Nat) (st : MediaStream)
    (tid : Int) (tr : List MuxCall)
    (h : muxInitStream ext i st = Except.ok (tid, tr)) (j : Nat)
    (hm : MuxCall.addTrack j ∈ tr) :
    j = i ∧ st.codec_type ≠ MediaType.data := by
  obtain ⟨ct, cid, sr, sto⟩ := st
  cases ct <;> simp only [muxInitStream] at h
  · split_ifs at h
    unfold muxInitTrack at h
    split_ifs at h
    any_goals simp at h
    obtain ⟨h1, h2⟩ := h
    subst h1
    subst h2
    exact ⟨by simpa using hm, by simp⟩
  · unfold muxInitTrack at h
    split_ifs at h
    any_goals simp at h
    obtain ⟨h1, h2⟩ := h
    subst h1
    subst h2
    exact ⟨by simpa using hm, by simp⟩
  · simp at h
    obtain ⟨h1, h2⟩ := h
    subst h2
    simp at hm

theorem muxInitStream_ok_data (ext : MuxExt) (i : Nat) (st : MediaStream)
    (tid : Int) (tr : List MuxCall)
    (h : muxInitStream ext i st = Except.ok (tid, tr))
    (hd : st.codec_type = MediaType.data) : tid = 0 ∧ tr = [] := by
  obtain ⟨ct, cid, sr, sto⟩ := st
  cases hd
  simp only [muxInitStream] at h
  simp at h
  exact ⟨by omega, h.2⟩

theorem muxInitStream_ok_nondata (ext : MuxExt) (i : Nat) (st : MediaStream)
    (tid : Int) (tr : List MuxCall)
    (h : muxInitStream ext i st = Except.ok (tid, tr))
    (hd : st.codec_type ≠ MediaType.data) : MuxCall.addTrack i ∈ tr := by
  obtain ⟨ct, cid, sr, sto⟩ := st
  cases ct <;> simp only [muxInitStream] at h
  · split_ifs at h
    unfold muxInitTrack at h
    split_ifs at h
    any_goals simp at h
    rw [← h.2]
    simp
  · unfold muxInitTrack at h
    split_ifs at h
    any_goals simp at h
    rw [← h.2]
    simp
  · exact absurd rfl hd

theorem muxInitStream_error_neg (ext : MuxExt) (i : Nat) (st : MediaStream)
    (c : Int) (d : Bool) (tr : List MuxCall)
    (h : muxInitStream ext i st = Except.error (c, d, tr)) : c < 0 := by
  obtain ⟨ct, cid, sr, sto⟩ := st
  cases ct <;> simp only [muxInitStream] at h
  · split_ifs at h <;>
      first
        | (unfold muxInitTrack at h
           split_ifs at h <;> simp_all [AVERROR_EINVAL, webrtc_convert_codec] <;>
             omega)
        | (simp_all [AVERROR_EINVAL]; omega)
  · unfold muxInitTrack at h
    split_ifs at h <;> simp_all [AVERROR_EINVAL, webrtc_convert_codec] <;> omega
  · simp at h

theorem muxInitLoop_ok_addTrack (ext : MuxExt) :
    ∀ (xs : List MediaStream) (i : Nat) (tids : List Int) (tr : List MuxCall),
      muxInitLoop ext i xs = Except.ok (tids, tr) →
      ∀ j, MuxCall.addTrack j ∈ tr →
        i ≤ j ∧ j < i + xs.length ∧
          (xs.getD (j - i) defaultStream).codec_type ≠ MediaType.data := by
  intro xs
  induction xs with
  | nil =>
    intro i tids tr h j hm
    obtain ⟨rfl, rfl⟩ : tids = [] ∧ ([] : List MuxCall) = tr := by
      simpa [muxInitLoop] using h.symm
    simp at hm
  | cons st rest ih =>
    intro i tids tr h j hm
    simp only [muxInitLoop] at h
    rcases hs : muxInitStream ext i st with e | ⟨tid, tr1⟩ <;> rw [hs] at h
    · simp at h
    · rcases hr : muxInitLoop ext (i+1) rest with ⟨c, d, tr2⟩ | ⟨tids2, tr2⟩ <;>
        rw [hr] at h
      · simp at h
      · obtain ⟨rfl, rfl⟩ : tids = tid :: tids2 ∧ tr = tr1 ++ tr2 := by
          simpa using h.symm
        rcases List.mem_append.mp hm with hm1 | hm2
        · obtain ⟨rfl, hnd⟩ := muxInitStream_ok_addTrack ext i st tid tr1 hs j hm1
          refine ⟨le_refl j, by simp, ?_⟩
          simpa using hnd
        · obtain ⟨h1, h2, h3⟩ := ih (i+1) tids2 tr2 hr j hm2
          refine ⟨by omega, by simp only [List.length_cons]; omega, ?_⟩
          have he : j - i = (j - (i+1)) + 1 := by omega
          rw [he, List.getD_cons_succ]
          exact h3

theorem muxInitLoop_append_error (ext : MuxExt) (bad : MediaStream)
    (post : List MediaStream) (c : Int) (d : Bool) (trb : List MuxCall) :
    ∀ (xs : List MediaStream) (i : Nat) (tids : List Int) (tr : List MuxCall),
      muxInitLoop ext i xs = Except.ok (tids, tr) →
      muxInitStream ext (i + xs.length) bad = Except.error (c, d, trb) →
      muxInitLoop ext i (xs ++ bad :: post)
        = Except.error (c, d, tr ++ trb) := by
  intro xs
  induction xs with
  | nil =>
    intro i tids tr h hbad
    obtain ⟨rfl, rfl⟩ : tids = [] ∧ ([] : List MuxCall) = tr := by
      simpa [muxInitLoop] using h.symm
    simp only [List.nil_append, muxInitLoop]
    rw [show i + [].length = i from by simp] at hbad
    rw [hbad]
  | cons st rest ih =>
    intro i tids tr h hbad
    simp only [muxInitLoop] at h
    rcases hs : muxInitStream ext i st with e | ⟨tid, tr1⟩ <;> rw [hs] at h
    · simp at h
    · rcases hr : muxInitLoop ext (i+1) rest with ⟨c2, d2, tr2⟩ | ⟨tids2, tr2⟩ <;>
        rw [hr] at h
      · simp at h
      · obtain ⟨rfl, rfl⟩ : tids = tid :: tids2 ∧ tr = tr1 ++ tr2 := by
          simpa using h.symm
        have hbad2 : muxInitStream ext (i + 1 + rest.length) bad
            = Except.error (c, d, trb) := by
          rw [show i + 1 + rest.length = i + (st :: rest).length from by
            simp only [List.length_cons]; omega]
          exact hbad
        have hrec := ih (i+1) tids2 tr2 hr hbad2
        simp only [List.cons_append, muxInitLoop, hs, List.append_eq, hrec,
          List.append_assoc]

/-- C5: for an audio stream whose sample rate is not 48000 or whose channel
layout is not stereo, session setup fails with UnsupportedMedia
(AVERROR(EINVAL)) in whip.c's whip_init and in webrtc_mux.c's whip_init alike,
and no track is registered for that stream — its validation precedes
rtcAddTrackEx — provided the earlier streams were processed without failure. -/
theorem whip_init_rejects_invalid_audio (extW : WhipExt) (extM : MuxExt)
    (pre post : List MediaStream) (bad : MediaStream)
    (trW : List WhipCall) (tidsM : List Int) (trM : List MuxCall)
    (hb : bad.codec_type = MediaType.audio)
    (hbad : bad.sample_rate ≠ 48000 ∨ bad.stereo = false)
    (hpc : extW.pcRes ≠ 0) (hcb : extW.cbRes = 0) (hal : extW.allocOk = true)
    (hW : whipInitLoop extW 0 pre = Except.ok trW)
    (hic : 0 ≤ extM.initConnRes) (halM : extM.allocOk = true)
    (hM : muxInitLoop extM 0 pre = Except.ok (tidsM, trM)) :
    (whipInit extW (pre ++ bad :: post)).1 = AVERROR_EINVAL ∧
      WhipCall.addTrack pre.length ∉ (whipInit extW (pre ++ bad :: post)).2 ∧
      (muxWhipInit extM (pre ++ bad :: post)).code = AVERROR_EINVAL ∧
      MuxCall.addTrack pre.length
        ∉ (muxWhipInit extM (pre ++ bad :: post)).trace := by
  have hstW : whipInitStream extW (0 + pre.length) bad
      = Except.error (AVERROR_EINVAL, []) := by
    obtain ⟨ct, cid, sr, sto⟩ := bad
    cases hb
    simp only [whipInitStream]
    exact whipInitAudio_invalid_params extW (0 + pre.length) _ hbad
  have hloopW := whipInitLoop_append_error extW bad post AVERROR_EINVAL []
    pre 0 trW hW hstW
  have hinitW : whipInit extW (pre ++ bad :: post)
      = (AVERROR_EINVAL, (trW ++ []) ++ [WhipCall.whipDeinit]) := by
    unfold whipInit
    rw [if_neg hpc, if_neg (by simp [hcb]), if_neg (by simp [hal]), hloopW]
  have hstM : muxInitStream extM (0 + pre.length) bad
      = Except.error (AVERROR_EINVAL, true, []) :=
    muxInitStream_invalid_audio extM (0 + pre.length) bad hb hbad
  have hloopM := muxInitLoop_append_error extM bad post AVERROR_EINVAL true []
    pre 0 tidsM trM hM hstM
  have hinitM : muxWhipInit extM (pre ++ bad :: post)
      = { code := AVERROR_EINVAL, tracks := [], deinitCalled := true,
          trace := MuxCall.initConnection ::
            ((trM ++ []) ++ [MuxCall.webrtcDeinit]) } := by
    unfold muxWhipInit
    rw [if_neg (by omega), if_neg (by simp [halM]), hloopM]
    rfl
  refine ⟨by rw [hinitW], ?_, by rw [hinitM], ?_⟩
  · rw [hinitW]
    intro hmem
    simp only [List.append_nil, List.mem_append, List.mem_singleton] at hmem
    rcases hmem with hmem | hmem
    · have := whipInitLoop_ok_addTrack extW pre 0 trW hW pre.length hmem
      omega
    · exact absurd hmem (by simp)
  · rw [hinitM]
    intro hmem
    simp only [List.append_nil, List.mem_cons, List.mem_append,
      List.mem_singleton] at hmem
    rcases hmem with hmem | hmem | hmem
    · exact absurd hmem (by simp)
    · have := muxInitLoop_ok_addTrack extM pre 0 tidsM trM hM pre.length hmem
      omega
    · exact absurd hmem (by simp)

/-- Witness for C5: a single 44.1 kHz stereo Opus audio stream (no earlier
streams) is rejected by both setup paths with AVERROR(EINVAL) and no
rtcAddTrackEx call. -/
theorem whip_init_rejects_invalid_audio_witness :
    (whipInit
        (⟨1, 0, true, fun _ => 1, fun _ => 0, fun _ => 0, fun _ => 0, 0⟩ : WhipExt)
        ([] ++ (⟨MediaType.audio, CodecId.opus, 44100, true⟩ : MediaStream) :: [])).1
        = AVERROR_EINVAL ∧
      WhipCall.addTrack ([] : List MediaStream).length
        ∉ (whipInit
          (⟨1, 0, true, fun _ => 1, fun _ => 0, fun _ => 0, fun _ => 0, 0⟩ : WhipExt)
          ([] ++ (⟨MediaType.audio, CodecId.opus, 44100, true⟩ : MediaStream) :: [])).2 ∧
      (muxWhipInit
        (⟨0, true, fun _ => 0, fun _ => 0, fun _ => 0, fun _ => 1⟩ : MuxExt)
        ([] ++ (⟨MediaType.audio, CodecId.opus, 44100, true⟩ : MediaStream) :: [])).code
        = AVERROR_EINVAL ∧
      MuxCall.addTrack ([] : List MediaStream).length
        ∉ (muxWhipInit
          (⟨0, true, fun _ => 0, fun _ => 0, fun _ => 0, fun _ => 1⟩ : MuxExt)
          ([] ++ (⟨MediaType.audio, CodecId.opus, 44100, true⟩ : MediaStream) :: [])).trace :=
  whip_init_rejects_invalid_audio
    (⟨1, 0, true, fun _ => 1, fun _ => 0, fun _ => 0, fun _ => 0, 0⟩ : WhipExt)
    (⟨0, true, fun _ => 0, fun _ => 0, fun _ => 0, fun _ => 1⟩ : MuxExt)
    [] [] (⟨MediaType.audio, CodecId.opus, 44100, true⟩ : MediaStream)
    [] [] [] rfl (Or.inl (by decide)) (by decide) rfl rfl rfl (by decide)
    rfl rfl

theorem muxInitLoop_error_neg (ext : MuxExt) :
    ∀ (xs : List MediaStream) (i : Nat) (c : Int) (d : Bool)
      (tr : List MuxCall),
      muxInitLoop ext i xs = Except.error (c, d, tr) → c < 0 := by
  intro xs
  induction xs with
  | nil => intro i c d tr h; simp [muxInitLoop] at h
  | cons st rest ih =>
    intro i c d tr h
    simp only [muxInitLoop] at h
    rcases hs : muxInitStream ext i st with ⟨c1, d1, tr1⟩ | ⟨tid, tr1⟩ <;>
      rw [hs] at h
    · obtain ⟨rfl, rfl, rfl⟩ : c = c1 ∧ d = d1 ∧ tr = tr1 := by
        simpa using h.symm
      exact muxInitStream_error_neg ext i st _ _ _ hs
    · rcases hr : muxInitLoop ext (i+1) rest with ⟨c2, d2, tr2⟩ | ⟨tids2, tr2⟩ <;>
        rw [hr] at h
      · obtain ⟨rfl, rfl, rfl⟩ : c = c2 ∧ d = d2 ∧ tr = tr1 ++ tr2 := by
          simpa using h.symm
        exact ih (i+1) c d tr2 hr
      · simp at h

theorem muxInitLoop_ok_facts (ext : MuxExt) :
    ∀ (xs : List MediaStream) (i : Nat) (tids : List Int) (tr : List MuxCall),
      muxInitLoop ext i xs = Except.ok (tids, tr) →
      tids.length = xs.length ∧
      (∀ k, k < xs.length →
        ((xs.getD k defaultStream).codec_type ≠ MediaType.data →
          MuxCall.addTrack (i+k) ∈ tr) ∧
        ((xs.getD k defaultStream).codec_type = MediaType.data →
          tids.getD k 1 = 0)) := by
  intro xs
  induction xs with
  | nil =>
    intro i tids tr h
    obtain ⟨rfl, rfl⟩ : tids = [] ∧ tr = [] := by
      simpa [muxInitLoop] using h.symm
    exact ⟨rfl, fun k hk => absurd hk (by simp)⟩
  | cons st rest ih =>
    intro i tids tr h
    simp only [muxInitLoop] at h
    rcases hs : muxInitStream ext i st with e | ⟨tid, tr1⟩ <;> rw [hs] at h
    · simp at h
    · rcases hr : muxInitLoop ext (i+1) rest with ⟨c, d, tr2⟩ | ⟨tids2, tr2⟩ <;>
        rw [hr] at h
      · simp at h
      · obtain ⟨rfl, rfl⟩ : tids = tid :: tids2 ∧ tr = tr1 ++ tr2 := by
          simpa using h.symm
        obtain ⟨ihlen, ihk⟩ := ih (i+1) tids2 tr2 hr
        refine ⟨by simp [ihlen], ?_⟩
        intro k hk
        cases k with
        | zero =>
          refine ⟨fun hnd => ?_, fun hd => ?_⟩
          · have hmem := muxInitStream_ok_nondata ext i st tid tr1 hs
              (by simpa using hnd)
            simpa using List.mem_append_left tr2 hmem
          · obtain ⟨h0, _⟩ := muxInitStream_ok_data ext i st tid tr1 hs
              (by simpa using hd)
            simpa using h0
        | succ k =>
          have hk2 : k < rest.length := by simpa using hk
          obtain ⟨hmem, hzero⟩ := ihk k hk2
          refine ⟨fun hnd => ?_, fun hd => ?_⟩
          · have hmm := hmem (by simpa using hnd)
            have he : i + (k+1) = i + 1 + k := by omega
            rw [he]
            exact List.mem_append_right tr1 hmm
          · have hz := hzero (by simpa using hd)
            simpa using hz

theorem whipInitAudio_zero_track_id (ext : WhipExt) (i : Nat)
    (st : MediaStream) (hcid : st.codec_id = CodecId.opus)
    (hsr : st.sample_rate = 48000) (hsto : st.stereo = true)
    (hz : ext.addRes i = 0) :
    whipInitAudio ext i st
      = Except.error (AVERROR_EINVAL, [WhipCall.addTrack i]) := by
  unfold whipInitAudio
  rw [if_neg (by simp [hsr]), if_neg (by simp [hsto]),
    if_neg (by simp [hcid]), if_pos hz]

theorem whipInitAudio_nonzero_track_id (ext : WhipExt) (i : Nat)
    (st : MediaStream) (hcid : st.codec_id = CodecId.opus)
    (hsr : st.sample_rate = 48000) (hsto : st.stereo = true)
    (hnz : ext.addRes i ≠ 0) (hh : ext.handlerRes i = 0)
    (hsrr : ext.srRes i = 0) (hnk : ext.nackRes i = 0) :
    whipInitAudio ext i st
      = Except.ok [WhipCall.addTrack i, WhipCall.setPacketizationHandler i,
          WhipCall.chainRtcpSrReporter i, WhipCall.chainRtcpNackResponder i] := by
  unfold whipInitAudio
  rw [if_neg (by simp [hsr]), if_neg (by simp [hsto]),
    if_neg (by simp [hcid]), if_neg hnz, if_neg (by simp [hh]),
    if_neg (by simp [hsrr]), if_neg (by simp [hnk])]

theorem muxInitTrack_negative_track_id (ext : MuxExt) (i : Nat)
    (st : MediaStream) (hcid : st.codec_id = CodecId.h264)
    (hu : 0 ≤ ext.urlCtxRes i) (hrc : 0 ≤ ext.rtpChainRes i)
    (hsd : 0 ≤ ext.sdpRes i) (hneg : ext.addTrackRes i < 0) :
    muxInitTrack ext i st
      = Except.error (AVERROR_EINVAL, true,
          [MuxCall.initUrlContext i, MuxCall.rtpChainMuxOpen i,
            MuxCall.sdpWriteMedia i, MuxCall.addTrack i]) := by
  unfold muxInitTrack
  rw [if_neg (by omega), if_neg (by omega),
    if_neg (by simp [hcid, webrtc_convert_codec]), if_neg (by omega),
    if_pos hneg]

/-- C7 (amended): after a successful webrtc_mux.c whip_init, the
DataChannelTrack array has exactly one entry per declared stream and is fixed
from then on (the packet router only reads it — see
muxWhipWritePacket, whose output returns the tracks argument unchanged);
every audio or video stream has a track registered with the engine
(rtcAddTrackEx appears in the trace at its index), but a stream of any other
media type is skipped: no track is registered for it and its entry keeps the
mallocz'd invalid track_id 0. -/
theorem mux_init_track_bindings (ext : MuxExt) (streams : List MediaStream)
    (h : (muxWhipInit ext streams).code = 0) :
    (muxWhipInit ext streams).tracks.length = streams.length ∧
      (∀ state trks w pkt,
        (muxWhipWritePacket state trks w pkt).2.1 = trks) ∧
      ∀ k, k < streams.length →
        ((streams.getD k defaultStream).codec_type ≠ MediaType.data →
          MuxCall.addTrack k ∈ (muxWhipInit ext streams).trace) ∧
        ((streams.getD k defaultStream).codec_type = MediaType.data →
          (muxWhipInit ext streams).tracks.getD k 1 = 0 ∧
          MuxCall.addTrack k ∉ (muxWhipInit ext streams).trace) := by
  have h0 := h
  unfold muxWhipInit at h0
  by_cases h1 : ext.initConnRes < 0
  · rw [if_pos h1] at h0
    simp at h0
    omega
  · rw [if_neg h1] at h0
    by_cases h2 : ¬ ext.allocOk
    · rw [if_pos h2] at h0
      exact absurd h0 (by decide)
    · rw [if_neg h2] at h0
      rcases hl : muxInitLoop ext 0 streams with ⟨c, d, tr⟩ | ⟨tids, tr⟩
      · rw [hl] at h0
        simp at h0
        have := muxInitLoop_error_neg ext streams 0 c d tr hl
        omega
      · have heq : muxWhipInit ext streams
            = { code := 0, tracks := tids, deinitCalled := false,
                trace := MuxCall.initConnection :: tr } := by
          unfold muxWhipInit
          rw [if_neg h1, if_neg h2, hl]
        rw [heq]
        obtain ⟨hlen, hk⟩ := muxInitLoop_ok_facts ext streams 0 tids tr hl
        refine ⟨by simpa using hlen, fun state trks w pkt => rfl, ?_⟩
        intro k hkk
        obtain ⟨hmem, hzero⟩ := hk k hkk
        refine ⟨fun hnd => ?_, fun hd => ⟨by simpa using hzero hd, ?_⟩⟩
        · simp only [List.mem_cons]
          right
          simpa using hmem hnd
        · intro habs
          simp only [List.mem_cons] at habs
          rcases habs with habs | habs
          · exact absurd habs (by simp)
          · obtain ⟨h1a, h2a, hnd⟩ :=
              muxInitLoop_ok_addTrack ext streams 0 tids tr hl k habs
            rw [Nat.sub_zero] at hnd
            exact hnd (by simpa using hd)

/-- Witness for C7 (amended): a successful setup over one H.264 video stream
followed by one data stream binds a track to the video stream only. -/
theorem mux_init_track_bindings_witness :
    (muxWhipInit
        (⟨0, true, fun _ => 0, fun _ => 0, fun _ => 0, fun _ => 1⟩ : MuxExt)
        [(⟨MediaType.video, CodecId.h264, 90000, true⟩ : MediaStream),
          (⟨MediaType.data, CodecId.other, 0, false⟩ : MediaStream)]).tracks.length
      = [(⟨MediaType.video, CodecId.h264, 90000, true⟩ : MediaStream),
          (⟨MediaType.data, CodecId.other, 0, false⟩ : MediaStream)].length ∧
      (∀ state trks w pkt,
        (muxWhipWritePacket state trks w pkt).2.1 = trks) ∧
      ∀ k, k < [(⟨MediaType.video, CodecId.h264, 90000, true⟩ : MediaStream),
          (⟨MediaType.data, CodecId.other, 0, false⟩ : MediaStream)].length →
        (([(⟨MediaType.video, CodecId.h264, 90000, true⟩ : MediaStream),
            (⟨MediaType.data, CodecId.other, 0, false⟩ : MediaStream)].getD k
              defaultStream).codec_type ≠ MediaType.data →
          MuxCall.addTrack k
            ∈ (muxWhipInit
              (⟨0, true, fun _ => 0, fun _ => 0, fun _ => 0, fun _ => 1⟩ : MuxExt)
              [(⟨MediaType.video, CodecId.h264, 90000, true⟩ : MediaStream),
                (⟨MediaType.data, CodecId.other, 0, false⟩ : MediaStream)]).trace) ∧
        (([(⟨MediaType.video, CodecId.h264, 90000, true⟩ : MediaStream),
            (⟨MediaType.data, CodecId.other, 0, false⟩ : MediaStream)].getD k
              defaultStream).codec_type = MediaType.data →
          (muxWhipInit
            (⟨0, true, fun _ => 0, fun _ => 0, fun _ => 0, fun _ => 1⟩ : MuxExt)
            [(⟨MediaType.video, CodecId.h264, 90000, true⟩ : MediaStream),
              (⟨MediaType.data, CodecId.other, 0, false⟩ : MediaStream)]).tracks.getD k 1
            = 0 ∧
          MuxCall.addTrack k
            ∉ (muxWhipInit
              (⟨0, true, fun _ => 0, fun _ => 0, fun _ => 0, fun _ => 1⟩ : MuxExt)
              [(⟨MediaType.video, CodecId.h264, 90000, true⟩ : MediaStream),
                (⟨MediaType.data, CodecId.other, 0, false⟩ : MediaStream)]).trace) :=
  mux_init_track_bindings
    (⟨0, true, fun _ => 0, fun _ => 0, fun _ => 0, fun _ => 1⟩ : MuxExt)
    [(⟨MediaType.video, CodecId.h264, 90000, true⟩ : MediaStream),
      (⟨MediaType.data, CodecId.other, 0, false⟩ : MediaStream)] rfl

/-- C8 (amended): the two setup paths check opposite halves of the invalid
range of rtcAddTrackEx results, and with different error codes.  whip.c's
whip_init treats only a zero identifier as failure — AVERROR(EINVAL) on the
audio path — while a negative identifier is accepted and setup succeeds;
webrtc_mux.c's whip_init treats only a negative identifier as failure
(AVERROR(EINVAL), through `goto fail`, so whip_deinit runs), while a zero
identifier is accepted (see the separate counterexample).  Stated here at the
last stream of the declared list, the earlier streams processing without
failure. -/
theorem add_track_identifier_validation (extW extW2 : WhipExt) (extM : MuxExt)
    (pre : List MediaStream) (trW trW2 : List WhipCall)
    (tidsM : List Int) (trM : List MuxCall)
    (hpc : extW.pcRes ≠ 0) (hcb : extW.cbRes = 0) (hal : extW.allocOk = true)
    (hW : whipInitLoop extW 0 pre = Except.ok trW)
    (hz : extW.addRes pre.length = 0)
    (hpc2 : extW2.pcRes ≠ 0) (hcb2 : extW2.cbRes = 0)
    (hal2 : extW2.allocOk = true)
    (hW2 : whipInitLoop extW2 0 pre = Except.ok trW2)
    (hneg : extW2.addRes pre.length < 0)
    (hh2 : extW2.handlerRes pre.length = 0)
    (hsr2 : extW2.srRes pre.length = 0)
    (hnk2 : extW2.nackRes pre.length = 0) (hld2 : extW2.localDescRes = 0)
    (hic : 0 ≤ extM.initConnRes) (halM : extM.allocOk = true)
    (hM : muxInitLoop extM 0 pre = Except.ok (tidsM, trM))
    (hu : 0 ≤ extM.urlCtxRes pre.length)
    (hrc : 0 ≤ extM.rtpChainRes pre.length)
    (hsd : 0 ≤ extM.sdpRes pre.length)
    (hnm : extM.addTrackRes pre.length < 0) :
    (whipInit extW
        (pre ++ [(⟨MediaType.audio, CodecId.opus, 48000, true⟩ : MediaStream)])).1
      = AVERROR_EINVAL ∧
      (whipInit extW2
        (pre ++ [(⟨MediaType.audio, CodecId.opus, 48000, true⟩ : MediaStream)])).1
      = 0 ∧
      (muxWhipInit extM
        (pre ++ [(⟨MediaType.video, CodecId.h264, 90000, true⟩ : MediaStream)])).code
      = AVERROR_EINVAL ∧
      (muxWhipInit extM
        (pre ++ [(⟨MediaType.video, CodecId.h264, 90000, true⟩ : MediaStream)])).deinitCalled
      = true := by
  have hstW : whipInitStream extW (0 + pre.length)
      (⟨MediaType.audio, CodecId.opus, 48000, true⟩ : MediaStream)
      = Except.error (AVERROR_EINVAL, [WhipCall.addTrack (0 + pre.length)]) := by
    simp only [whipInitStream]
    exact whipInitAudio_zero_track_id extW (0 + pre.length) _ rfl rfl rfl
      (by simpa using hz)
  have hloopW := whipInitLoop_append_error extW
    (⟨MediaType.audio, CodecId.opus, 48000, true⟩ : MediaStream) []
    AVERROR_EINVAL [WhipCall.addTrack (0 + pre.length)] pre 0 trW hW hstW
  have hstW2 : whipInitStream extW2 (0 + pre.length)
      (⟨MediaType.audio, CodecId.opus, 48000, true⟩ : MediaStream)
      = Except.ok [WhipCall.addTrack (0 + pre.length),
          WhipCall.setPacketizationHandler (0 + pre.length),
          WhipCall.chainRtcpSrReporter (0 + pre.length),
          WhipCall.chainRtcpNackResponder (0 + pre.length)] := by
    simp only [whipInitStream]
    exact whipInitAudio_nonzero_track_id extW2 (0 + pre.length) _ rfl rfl rfl
      (by simp only [Nat.zero_add]; omega) (by simpa using hh2)
      (by simpa using hsr2) (by simpa using hnk2)
  have hone : whipInitLoop extW2 (0 + pre.length)
      [(⟨MediaType.audio, CodecId.opus, 48000, true⟩ : MediaStream)]
      = Except.ok ([WhipCall.addTrack (0 + pre.length),
          WhipCall.setPacketizationHandler (0 + pre.length),
          WhipCall.chainRtcpSrReporter (0 + pre.length),
          WhipCall.chainRtcpNackResponder (0 + pre.length)] ++ []) := by
    simp only [whipInitLoop, hstW2]
  have hloopW2 := whipInitLoop_append_ok extW2
    [(⟨MediaType.audio, CodecId.opus, 48000, true⟩ : MediaStream)]
    pre 0 trW2 _ hW2 hone
  have hstM : muxInitStream extM (0 + pre.length)
      (⟨MediaType.video, CodecId.h264, 90000, true⟩ : MediaStream)
      = Except.error (AVERROR_EINVAL, true,
          [MuxCall.initUrlContext (0 + pre.length),
            MuxCall.rtpChainMuxOpen (0 + pre.length),
            MuxCall.sdpWriteMedia (0 + pre.length),
            MuxCall.addTrack (0 + pre.length)]) := by
    simp only [muxInitStream]
    exact muxInitTrack_negative_track_id extM (0 + pre.length) _ rfl
      (by simpa using hu) (by simpa using hrc) (by simpa using hsd)
      (by simp only [Nat.zero_add]; omega)
  have hloopM := muxInitLoop_append_error extM
    (⟨MediaType.video, CodecId.h264, 90000, true⟩ : MediaStream) []
    AVERROR_EINVAL true _ pre 0 tidsM trM hM hstM
  refine ⟨?_, ?_, ?_, ?_⟩
  · have hinitW : whipInit extW
        (pre ++ [(⟨MediaType.audio, CodecId.opus, 48000, true⟩ : MediaStream)])
        = (AVERROR_EINVAL,
            (trW ++ [WhipCall.addTrack (0 + pre.length)])
              ++ [WhipCall.whipDeinit]) := by
      unfold whipInit
      rw [if_neg hpc, if_neg (by simp [hcb]), if_neg (by simp [hal]), hloopW]
    rw [hinitW]
  · have hinitW2 : whipInit extW2
        (pre ++ [(⟨MediaType.audio, CodecId.opus, 48000, true⟩ : MediaStream)])
        = (0, (trW2 ++ ([WhipCall.addTrack (0 + pre.length),
            WhipCall.setPacketizationHandler (0 + pre.length),
            WhipCall.chainRtcpSrReporter (0 + pre.length),
            WhipCall.chainRtcpNackResponder (0 + pre.length)] ++ []))
              ++ [WhipCall.setLocalDescription]) := by
      unfold whipInit
      rw [if_neg hpc2, if_neg (by simp [hcb2]), if_neg (by simp [hal2]),
        hloopW2]
      simp [hld2]
    rw [hinitW2]
  · have hinitM : muxWhipInit extM
        (pre ++ [(⟨MediaType.video, CodecId.h264, 90000, true⟩ : MediaStream)])
        = { code := AVERROR_EINVAL, tracks := [], deinitCalled := true,
            trace := MuxCall.initConnection ::
              ((trM ++ [MuxCall.initUrlContext (0 + pre.length),
                  MuxCall.rtpChainMuxOpen (0 + pre.length),
                  MuxCall.sdpWriteMedia (0 + pre.length),
                  MuxCall.addTrack (0 + pre.length)])
                ++ [MuxCall.webrtcDeinit]) } := by
      unfold muxWhipInit
      rw [if_neg (by omega), if_neg (by simp [halM]), hloopM]
      rfl
    rw [hinitM]
  · have hinitM : muxWhipInit extM
        (pre ++ [(⟨MediaType.video, CodecId.h264, 90000, true⟩ : MediaStream)])
        = { code := AVERROR_EINVAL, tracks := [], deinitCalled := true,
            trace := MuxCall.initConnection ::
              ((trM ++ [MuxCall.initUrlContext (0 + pre.length),
                  MuxCall.rtpChainMuxOpen (0 + pre.length),
                  MuxCall.sdpWriteMedia (0 + pre.length),
                  MuxCall.addTrack (0 + pre.length)])
                ++ [MuxCall.webrtcDeinit]) } := by
      unfold muxWhipInit
      rw [if_neg (by omega), if_neg (by simp [halM]), hloopM]
      rfl
    rw [hinitM]

/-- Witness for C8 (amended), with no earlier streams: zero id from
rtcAddTrackEx fails whip.c setup with EINVAL, a negative id passes it, and a
negative id fails webrtc_mux.c setup with EINVAL and teardown. -/
theorem add_track_identifier_validation_witness :
    (whipInit
        (⟨1, 0, true, fun _ => 0, fun _ => 0, fun _ => 0, fun _ => 0, 0⟩ : WhipExt)
        ([] ++ [(⟨MediaType.audio, CodecId.opus, 48000, true⟩ : MediaStream)])).1
      = AVERROR_EINVAL ∧
      (whipInit
        (⟨1, 0, true, fun _ => -7, fun _ => 0, fun _ => 0, fun _ => 0, 0⟩ : WhipExt)
        ([] ++ [(⟨MediaType.audio, CodecId.opus, 48000, true⟩ : MediaStream)])).1
      = 0 ∧
      (muxWhipInit
        (⟨0, true, fun _ => 0, fun _ => 0, fun _ => 0, fun _ => -7⟩ : MuxExt)
        ([] ++ [(⟨MediaType.video, CodecId.h264, 90000, true⟩ : MediaStream)])).code
      = AVERROR_EINVAL ∧
      (muxWhipInit
        (⟨0, true, fun _ => 0, fun _ => 0, fun _ => 0, fun _ => -7⟩ : MuxExt)
        ([] ++ [(⟨MediaType.video, CodecId.h264, 90000, true⟩ : MediaStream)])).deinitCalled
      = true :=
  add_track_identifier_validation
    (⟨1, 0, true, fun _ => 0, fun _ => 0, fun _ => 0, fun _ => 0, 0⟩ : WhipExt)
    (⟨1, 0, true, fun _ => -7, fun _ => 0, fun _ => 0, fun _ => 0, 0⟩ : WhipExt)
    (⟨0, true, fun _ => 0, fun _ => 0, fun _ => 0, fun _ => -7⟩ : MuxExt)
    [] [] [] [] [] (by decide) rfl rfl rfl rfl (by decide) rfl rfl rfl
    (by decide) rfl rfl rfl rfl (by decide) rfl rfl (by decide) (by decide)
    (by decide) (by decide)

end WhipSpec
